import Mathlib

/-!
Verification development for the colorblind LUT generator
(`src/py_modules/colorblind_plugin/lut_generator.py`).

The Python module computes with IEEE double precision; the embedding below
models that arithmetic over the real numbers `ℝ`, with `math.pow` modelled by
`Real.rpow`.  File output (`write_cube_file`) is modelled as the list of text
lines the function writes, and the fallible entry point (`generate_lut`,
which raises `ValueError`) is modelled with `Except String`.
-/

noncomputable section

/-- Model of the `Vec3` class (lut_generator.py lines 19-63): a 3D vector of
real components used for RGB/LMS color operations. -/
structure Vec3 where
  x : ℝ
  y : ℝ
  z : ℝ

namespace Vec3

/-- Componentwise addition (`Vec3.__add__`). -/
def add (a b : Vec3) : Vec3 := ⟨a.x + b.x, a.y + b.y, a.z + b.z⟩

/-- Componentwise subtraction (`Vec3.__sub__`). -/
def sub (a b : Vec3) : Vec3 := ⟨a.x - b.x, a.y - b.y, a.z - b.z⟩

/-- Scalar multiplication (`Vec3.__mul__` / `__rmul__`). -/
def mul (a : Vec3) (scalar : ℝ) : Vec3 := ⟨a.x * scalar, a.y * scalar, a.z * scalar⟩

/-- Dot product (`Vec3.dot`). -/
def dot (a b : Vec3) : ℝ := a.x * b.x + a.y * b.y + a.z * b.z

/-- Componentwise power (`Vec3.pow`), with `math.pow` modelled by `Real.rpow`. -/
def pow (a : Vec3) (exponent : ℝ) : Vec3 := ⟨a.x ^ exponent, a.y ^ exponent, a.z ^ exponent⟩

/-- Clamp components to the `[0.0, 1.0]` range (`Vec3.clamp`):
`max(0.0, min(1.0, ·))` on each component. -/
def clamp (a : Vec3) : Vec3 :=
  ⟨max 0.0 (min 1.0 a.x), max 0.0 (min 1.0 a.y), max 0.0 (min 1.0 a.z)⟩

/-- Conversion to a tuple (`Vec3.to_tuple`). -/
def to_tuple (a : Vec3) : ℝ × ℝ × ℝ := (a.x, a.y, a.z)

/-- Indexing into the tuple view of a vector, as in the Python
`lms_tuple[channel]` expressions. -/
def get (a : Vec3) : Fin 3 → ℝ
  | 0 => a.x
  | 1 => a.y
  | 2 => a.z

/-- Replacement of one component, as in the Python list-surgery idiom
`lms_list = list(...); lms_list[channel] = v; Vec3(*lms_list)`. -/
def put (a : Vec3) (i : Fin 3) (v : ℝ) : Vec3 :=
  match i with
  | 0 => ⟨v, a.y, a.z⟩
  | 1 => ⟨a.x, v, a.z⟩
  | 2 => ⟨a.x, a.y, v⟩

end Vec3

/-- Model of the `Mat3` class (lut_generator.py lines 66-93): a 3x3 matrix
held as three row vectors. -/
structure Mat3 where
  r0 : Vec3
  r1 : Vec3
  r2 : Vec3

namespace Mat3

/-- Matrix-vector multiplication (`Mat3.mul_vec`): three row dot products. -/
def mul_vec (m : Mat3) (v : Vec3) : Vec3 := ⟨m.r0.dot v, m.r1.dot v, m.r2.dot v⟩

/-- Row extraction (`Mat3.row`). -/
def row (m : Mat3) : Fin 3 → Vec3
  | 0 => m.r0
  | 1 => m.r1
  | 2 => m.r2

/-- Column extraction (`Mat3.col`). -/
def col (m : Mat3) (i : Fin 3) : Vec3 := ⟨m.r0.get i, m.r1.get i, m.r2.get i⟩

end Mat3

/-- `LMS_FROM_RGB` (lut_generator.py lines 104-108). -/
def LMS_FROM_RGB : Mat3 :=
  ⟨⟨0.31399022, 0.63951294, 0.04649755⟩,
   ⟨0.15537241, 0.75789446, 0.08670142⟩,
   ⟨0.01775239, 0.10944209, 0.87256922⟩⟩

/-- `RGB_FROM_LMS` (lut_generator.py lines 110-114). -/
def RGB_FROM_LMS : Mat3 :=
  ⟨⟨5.47221206, -4.64196010, 0.16963708⟩,
   ⟨-1.1252419, 2.29317094, -0.16789520⟩,
   ⟨0.02980165, -0.19318073, 1.16364789⟩⟩

/-- `LMS_PROTANOPE` simulation matrix (lines 119-123). -/
def LMS_PROTANOPE : Mat3 :=
  ⟨⟨0.0, 1.05118294, -0.05116099⟩,
   ⟨0.0, 1.0, 0.0⟩,
   ⟨0.0, 0.0, 1.0⟩⟩

/-- `LMS_DEUTERANOPE` simulation matrix (lines 125-129). -/
def LMS_DEUTERANOPE : Mat3 :=
  ⟨⟨1.0, 0.0, 0.0⟩,
   ⟨0.9513092, 0.0, 0.04866992⟩,
   ⟨0.0, 0.0, 1.0⟩⟩

/-- `LMS_TRITANOPE` simulation matrix (lines 131-135). -/
def LMS_TRITANOPE : Mat3 :=
  ⟨⟨1.0, 0.0, 0.0⟩,
   ⟨0.0, 1.0, 0.0⟩,
   ⟨-0.86744736, 1.86727089, 0.0⟩⟩

/-- `LMS_SIMULATE`, the combined simulation matrix (lines 138-142). -/
def LMS_SIMULATE : Mat3 :=
  ⟨⟨0.0, 1.05118294, -0.05116099⟩,
   ⟨0.9513092, 0.0, 0.04866992⟩,
   ⟨-0.86744736, 1.86727089, 0.0⟩⟩

/-- `LMS_FROM_RGB_V`, the Viénot LMS conversion used by daltonisation
(lines 151-155). -/
def LMS_FROM_RGB_V : Mat3 :=
  ⟨⟨17.8824, 43.5161, 4.11935⟩,
   ⟨3.45565, 27.1554, 3.86714⟩,
   ⟨0.0299566, 0.184309, 1.46709⟩⟩

/-- `RGB_FROM_LMS_V` (lines 157-161). -/
def RGB_FROM_LMS_V : Mat3 :=
  ⟨⟨0.080944447900, -0.13050440900, 0.116721066⟩,
   ⟨-0.010248533500, 0.05401932660, -0.113614708⟩,
   ⟨-0.000365296938, -0.00412161469, 0.693511405⟩⟩

/-- `LMS_PROTANOPE_V` (lines 163-167). -/
def LMS_PROTANOPE_V : Mat3 :=
  ⟨⟨0.0, 2.02344, -2.52581⟩,
   ⟨0.0, 1.0, 0.0⟩,
   ⟨0.0, 0.0, 1.0⟩⟩

/-- `LMS_DEUTERANOPE_V` (lines 169-173). -/
def LMS_DEUTERANOPE_V : Mat3 :=
  ⟨⟨1.0, 0.0, 0.0⟩,
   ⟨0.494207, 0.0, 1.24827⟩,
   ⟨0.0, 0.0, 1.0⟩⟩

/-- `LMS_TRITANOPE_V` (lines 175-179). -/
def LMS_TRITANOPE_V : Mat3 :=
  ⟨⟨1.0, 0.0, 0.0⟩,
   ⟨0.0, 1.0, 0.0⟩,
   ⟨-0.395913, 0.801109, 0.0⟩⟩

/-- `DALTON_ERROR_TO_DELTA_P` (lines 182-186). -/
def DALTON_ERROR_TO_DELTA_P : Mat3 :=
  ⟨⟨0.0, 0.0, 0.0⟩,
   ⟨0.7, 1.0, 0.0⟩,
   ⟨0.7, 0.0, 1.0⟩⟩

/-- `DALTON_ERROR_TO_DELTA_D` (lines 188-192). -/
def DALTON_ERROR_TO_DELTA_D : Mat3 :=
  ⟨⟨1.0, 0.7, 0.0⟩,
   ⟨0.0, 0.0, 0.0⟩,
   ⟨0.0, 0.7, 1.0⟩⟩

/-- `DALTON_ERROR_TO_DELTA_T` (lines 194-198). -/
def DALTON_ERROR_TO_DELTA_T : Mat3 :=
  ⟨⟨1.0, 0.0, 0.7⟩,
   ⟨0.0, 1.0, 0.7⟩,
   ⟨0.0, 0.0, 0.0⟩⟩

/-- `NC_DELTA_RECIP`, the correction algorithm matrix (lines 201-205). -/
def NC_DELTA_RECIP : Mat3 :=
  ⟨⟨0.0, 1.05118299, -1.15280771⟩,
   ⟨0.951309144, 0.0, 0.535540938⟩,
   ⟨-19.5461426, 20.5465717, 0.0⟩⟩

/-- `GAMMA = 2.2`, the sRGB gamma (line 211). -/
def GAMMA : ℝ := 2.2

/-- `to_linear` (lines 218-220): sRGB to linear RGB, componentwise power 2.2. -/
def to_linear (rgb : Vec3) : Vec3 := rgb.pow GAMMA

/-- `from_linear` (lines 223-225): linear RGB to sRGB, componentwise power
`1.0 / 2.2`. -/
def from_linear (rgb : Vec3) : Vec3 := rgb.pow (1.0 / GAMMA)

/-- The `CBType` literal alias (line 15): one of the three deficiency-type
strings `"protanope" | "deuteranope" | "tritanope"`. -/
inductive CBType where
  | protanope
  | deuteranope
  | tritanope
deriving DecidableEq, Repr

/-- The `Operation` literal alias (line 16): one of the three operation
strings `"simulate" | "daltonise" | "correct"`. -/
inductive Operation where
  | simulate
  | daltonise
  | correct
deriving DecidableEq, Repr

/-- The `channel_map` dictionary used by `simulate` (line 245) and `correct`
(line 338): protanope maps to LMS index 0, deuteranope to 1, tritanope to 2. -/
def channel_map : CBType → Fin 3
  | .protanope => 0
  | .deuteranope => 1
  | .tritanope => 2

/-- The affected-channel interpolation step of `simulate`
(lut_generator.py lines 252-264): read the affected channel, compute the
simulated value as the dot product of the matching `LMS_SIMULATE` row with
the LMS vector, interpolate by `strength`, and write the result back into
the affected channel. -/
def simulate_channel (channel : Fin 3) (strength : ℝ) (lms : Vec3) : Vec3 :=
  let sim_row := LMS_SIMULATE.row channel
  let sim_value := sim_row.dot lms
  let affected := lms.get channel
  let new_value := affected + strength * (sim_value - affected)
  lms.put channel new_value

/-- `simulate` (lines 232-270): gamma-decode, convert to LMS, interpolate the
affected channel toward its fully-simulated value, convert back, clamp, and
gamma-encode. -/
def simulate (rgb : Vec3) (cb_type : CBType) (strength : ℝ) : Vec3 :=
  let channel := channel_map cb_type
  let linear_rgb := to_linear rgb
  let lms := LMS_FROM_RGB.mul_vec linear_rgb
  let lms_sim := simulate_channel channel strength lms
  let rgb_out := RGB_FROM_LMS.mul_vec lms_sim
  let rgb_clamped := rgb_out.clamp
  from_linear rgb_clamped

/-- `simulate_v` (lines 273-279): Viénot-model simulation round trip used
internally by `daltonise`. -/
def simulate_v (rgb : Vec3) (lms_transform : Mat3) : Vec3 :=
  RGB_FROM_LMS_V.mul_vec (lms_transform.mul_vec (LMS_FROM_RGB_V.mul_vec rgb))

/-- `daltonise` (lines 282-318): Fidaner error redistribution in the input
RGB domain, followed by a final clamp. -/
def daltonise (rgb : Vec3) (cb_type : CBType) (strength : ℝ) : Vec3 :=
  let pick : Mat3 × Mat3 :=
    match cb_type with
    | .protanope => (LMS_PROTANOPE_V, DALTON_ERROR_TO_DELTA_P)
    | .deuteranope => (LMS_DEUTERANOPE_V, DALTON_ERROR_TO_DELTA_D)
    | .tritanope => (LMS_TRITANOPE_V, DALTON_ERROR_TO_DELTA_T)
  let rgb_sim := simulate_v rgb pick.1
  let error := rgb.sub rgb_sim
  let rgb_delta := pick.2.mul_vec (error.mul strength)
  let rgb_out := rgb.add rgb_delta
  rgb_out.clamp

/-- The per-channel tuning list `amount_recip = [0.25, -0.3, -0.07]` of
`correct` (line 357). -/
def amount_recip : Fin 3 → ℝ
  | 0 => 0.25
  | 1 => -0.3
  | 2 => -0.07

/-- The per-channel multiplier vector built by `correct` (lines 352-367):
the `NC_DELTA_RECIP` column for the affected channel scaled by
`mc * amount = strength² * (-amount_recip[channel])`, with the affected
component overwritten by the brightness term `ms * 2.0 = (1 - strength) * 2`. -/
def correct_multiplier (channel : Fin 3) (strength : ℝ) : Vec3 :=
  let mc := strength * strength
  let ms := 1.0 - strength
  let amount := -(amount_recip channel)
  let recip_col := NC_DELTA_RECIP.col channel
  let correct_vec := recip_col.mul (mc * amount)
  correct_vec.put channel (ms * 2.0)

/-- `correct` (lines 321-376): gamma-decode, convert to LMS, scale the
affected-channel error by `strength`, apply the blended multiplier vector,
convert back, clamp and gamma-encode. -/
def correct (rgb : Vec3) (cb_type : CBType) (strength : ℝ) : Vec3 :=
  let channel := channel_map cb_type
  let linear_rgb := to_linear rgb
  let lms := LMS_FROM_RGB.mul_vec linear_rgb
  let org_elt := lms.get channel
  let sim_row := LMS_SIMULATE.row channel
  let sim_elt := sim_row.dot lms
  let error := strength * (org_elt - sim_elt)
  let correct_final := correct_multiplier channel strength
  let lms_corrected := lms.add (correct_final.mul error)
  let rgb_out := RGB_FROM_LMS.mul_vec lms_corrected
  let rgb_clamped := rgb_out.clamp
  from_linear rgb_clamped

/-- The `transform_func` dispatch dictionary of `create_lut` (lines 405-409). -/
def transform_func : Operation → Vec3 → CBType → ℝ → Vec3
  | .simulate => simulate
  | .daltonise => daltonise
  | .correct => correct

/-- The grid of input colors sampled by `create_lut` (lines 415-428): index
triples iterated with `r_idx` outermost (slowest) and `b_idx` innermost
(fastest), each sampled at its cell center `(index + 0.5) * (1.0 / lut_size)`
per channel. -/
def cell_center (lut_size r_idx g_idx b_idx : ℕ) : Vec3 :=
  ⟨((r_idx : ℝ) + 0.5) * (1.0 / lut_size), ((g_idx : ℝ) + 0.5) * (1.0 / lut_size),
   ((b_idx : ℝ) + 0.5) * (1.0 / lut_size)⟩

/-- The ordered list of grid inputs sampled by the `create_lut` loop nest:
`r_idx` outermost (slowest), `b_idx` innermost (fastest). -/
def lut_inputs (lut_size : ℕ) : List Vec3 :=
  (List.range lut_size).flatMap fun r_idx =>
    (List.range lut_size).flatMap fun g_idx =>
      (List.range lut_size).map fun b_idx =>
        cell_center lut_size r_idx g_idx b_idx

/-- `create_lut` (lines 383-436): apply the selected transform to every
sampled grid color, clamp, and collect the tuples in iteration order. -/
def create_lut (cb_type : CBType) (operation : Operation) (strength : ℝ)
    (lut_size : ℕ) : List (ℝ × ℝ × ℝ) :=
  (lut_inputs lut_size).map fun rgb_in =>
    ((transform_func operation) rgb_in cb_type strength).clamp.to_tuple

/-- Decimal rendering of a natural number padded with leading zeros to
exactly `k` digits (most significant first); the fractional part of the
fixed-point formatting below. -/
def pad_digits (k n : ℕ) : String :=
  String.mk ((List.range k).reverse.map fun i => Char.ofNat (48 + n / 10 ^ i % 10))

/-- Model of Python fixed-point formatting `f"{x:.{k}f}"` for nonnegative
values (all values written by the generator are clamped to `[0, 1]` first):
round `x` to `k` decimal places and render with exactly `k` digits after the
decimal point. -/
def fmt_fixed (k : ℕ) (x : ℝ) : String :=
  let n : ℕ := (round (x * 10 ^ k) : ℤ).toNat
  toString (n / 10 ^ k) ++ "." ++ pad_digits k (n % 10 ^ k)

/-- `write_cube_file` (lines 439-465), modelled as the list of text lines the
function writes to the output file, in order: the `TITLE` line, the
`LUT_3D_SIZE` line, then one line per LUT sample holding the three channel
values formatted to 6 decimal places and separated by single spaces. -/
def write_cube_file (lut_data : List (ℝ × ℝ × ℝ)) (lut_size : ℕ)
    (title : String) : List String :=
  ("TITLE \"" ++ title ++ "\"") ::
  ("LUT_3D_SIZE " ++ toString lut_size) ::
  lut_data.map fun t => fmt_fixed 6 t.1 ++ " " ++ fmt_fixed 6 t.2.1 ++ " " ++ fmt_fixed 6 t.2.2

/-- `valid_cb_types` (line 514). -/
def valid_cb_types : List String := ["protanope", "deuteranope", "tritanope"]

/-- `valid_operations` (line 518). -/
def valid_operations : List String := ["simulate", "daltonise", "correct"]

/-- Recognition of a raw deficiency-type string as one of the `CBType`
literal values; `none` exactly when `cb_type not in valid_cb_types`. -/
def to_cb_type (s : String) : Option CBType :=
  if s = "protanope" then some .protanope
  else if s = "deuteranope" then some .deuteranope
  else if s = "tritanope" then some .tritanope
  else none

/-- Recognition of a raw operation string as one of the `Operation` literal
values; `none` exactly when `operation not in valid_operations`. -/
def to_operation (s : String) : Option Operation :=
  if s = "simulate" then some .simulate
  else if s = "daltonise" then some .daltonise
  else if s = "correct" then some .correct
  else none

/-- `generate_lut` (lines 472-541), the public entry point.  A raised
`ValueError` is modelled as `Except.error` carrying the message (messages
are reproduced without the Python quote characters); a successful run is
modelled as `Except.ok` of the returned output path together with the lines
of the written cube file.  An error result carries no file lines: nothing is
written on a validation failure. -/
def generate_lut (cb_type operation : String) (strength : ℝ)
    (output_path : Option String) (lut_size : ℕ) :
    Except String (String × List String) :=
  match to_cb_type cb_type with
  | none => .error "cb_type must be one of [protanope, deuteranope, tritanope]"
  | some cb =>
    match to_operation operation with
    | none => .error "operation must be one of [simulate, daltonise, correct]"
    | some op =>
      if ¬ (0.0 ≤ strength ∧ strength ≤ 1.0) then
        .error "strength must be between 0.0 and 1.0"
      else if ¬ (lut_size = 16 ∨ lut_size = 32 ∨ lut_size = 64) then
        .error "lut_size must be 16, 32, or 64"
      else
        let path := output_path.getD
          (cb_type ++ "_" ++ operation ++ "_" ++ toString ⌊strength * 100⌋ ++ ".cube")
        let lut_data := create_lut cb op strength lut_size
        let title := cb_type.capitalize ++ " " ++ operation.capitalize ++
          " (strength=" ++ fmt_fixed 2 strength ++ ")"
        .ok (path, write_cube_file lut_data lut_size title)

/-! ## Basic component lemmas -/

/-- Every component of a clamped vector lies in `[0, 1]`. -/
theorem Vec3.clamp_unit (v : Vec3) :
    (0 ≤ v.clamp.x ∧ v.clamp.x ≤ 1) ∧ (0 ≤ v.clamp.y ∧ v.clamp.y ≤ 1) ∧
    (0 ≤ v.clamp.z ∧ v.clamp.z ≤ 1) := by
  simp only [Vec3.clamp]
  norm_num [le_max_iff, max_le_iff, min_le_iff]

/-- If all components already lie in `[0, 1]`, clamping is the identity. -/
theorem Vec3.clamp_eq_self (v : Vec3)
    (hx0 : 0 ≤ v.x) (hx1 : v.x ≤ 1) (hy0 : 0 ≤ v.y) (hy1 : v.y ≤ 1)
    (hz0 : 0 ≤ v.z) (hz1 : v.z ≤ 1) : v.clamp = v := by
  have hc : ∀ w : ℝ, 0 ≤ w → w ≤ 1 → max 0.0 (min 1.0 w) = w := fun w h0 h1 => by
    rw [min_eq_right (by linarith), max_eq_right (by linarith)]
  simp only [Vec3.clamp]
  rw [hc _ hx0 hx1, hc _ hy0 hy1, hc _ hz0 hz1]

/-- Gamma re-encoding maps unit-range vectors to unit-range vectors. -/
theorem from_linear_unit (v : Vec3)
    (hx0 : 0 ≤ v.x) (hx1 : v.x ≤ 1) (hy0 : 0 ≤ v.y) (hy1 : v.y ≤ 1)
    (hz0 : 0 ≤ v.z) (hz1 : v.z ≤ 1) :
    (0 ≤ (from_linear v).x ∧ (from_linear v).x ≤ 1) ∧
    (0 ≤ (from_linear v).y ∧ (from_linear v).y ≤ 1) ∧
    (0 ≤ (from_linear v).z ∧ (from_linear v).z ≤ 1) := by
  have he : (0:ℝ) ≤ 1.0 / GAMMA := by norm_num [GAMMA]
  exact ⟨⟨Real.rpow_nonneg hx0 _, Real.rpow_le_one hx0 hx1 he⟩,
    ⟨Real.rpow_nonneg hy0 _, Real.rpow_le_one hy0 hy1 he⟩,
    ⟨Real.rpow_nonneg hz0 _, Real.rpow_le_one hz0 hz1 he⟩⟩

/-! ## Claim C9 -/

/-- C9: the affected-channel interpolation step of `simulate` at strength 1.0
is idempotent, because the matching `LMS_SIMULATE` row has coefficient 0 at
the affected position, so the simulated value does not depend on the channel
being replaced. -/
theorem simulate_channel_one_idempotent (c : Fin 3) (v : Vec3) :
    (LMS_SIMULATE.row c).get c = 0 ∧
    simulate_channel c 1 (simulate_channel c 1 v) = simulate_channel c 1 v := by
  fin_cases c <;>
    refine ⟨by norm_num [LMS_SIMULATE, Mat3.row, Vec3.get], ?_⟩ <;>
    · simp only [simulate_channel, LMS_SIMULATE, Mat3.row, Vec3.get, Vec3.put, Vec3.dot,
        Vec3.mk.injEq]
      norm_num

/-! ## Claim C7 -/

/-- C7: the multiplier vector of `correct` equals, on the two non-affected
channels, `strength²` times the tuning constant `-amount_recip[channel]`
times the matching component of the `NC_DELTA_RECIP` column, and on the
affected channel equals `(1 - strength) * 2`; at strength 1 the affected
component is 0. -/
theorem correct_multiplier_formula (c : Fin 3) (s : ℝ) (h0 : 0 ≤ s) (h1 : s ≤ 1) :
    (∀ i : Fin 3, i ≠ c →
      (correct_multiplier c s).get i =
        s ^ 2 * (-(amount_recip c)) * ((NC_DELTA_RECIP.col c).get i)) ∧
    (correct_multiplier c s).get c = (1 - s) * 2 ∧
    (correct_multiplier c 1).get c = 0 := by
  refine ⟨?_, ?_, ?_⟩
  · intro i hi
    fin_cases c <;> fin_cases i <;>
      simp_all [correct_multiplier, amount_recip, NC_DELTA_RECIP, Mat3.col, Vec3.get,
        Vec3.put, Vec3.mul] <;> ring
  · fin_cases c <;> simp [correct_multiplier, Vec3.put, Vec3.get] <;> norm_num
  · fin_cases c <;> simp [correct_multiplier, Vec3.put, Vec3.get] <;> norm_num

/-- Witness for C7 at channel 0 and strength 1/2. -/
theorem correct_multiplier_formula_witness :
    (∀ i : Fin 3, i ≠ 0 →
      (correct_multiplier 0 (1/2)).get i =
        (1/2 : ℝ) ^ 2 * (-(amount_recip 0)) * ((NC_DELTA_RECIP.col 0).get i)) ∧
    (correct_multiplier 0 (1/2)).get 0 = (1 - 1/2) * 2 ∧
    (correct_multiplier 0 1).get 0 = 0 :=
  correct_multiplier_formula 0 (1/2) (by norm_num) (by norm_num)

/-! ## Claim C10 -/

/-- C10: `daltonise` at strength 0 is an exact identity on unit-range input:
the scaled error is the zero vector, the delta matrix maps it to zero, and
the final clamp fixes components already in `[0, 1]`. -/
theorem daltonise_strength_zero_exact (t : CBType) (rgb : Vec3)
    (hx0 : 0 ≤ rgb.x) (hx1 : rgb.x ≤ 1) (hy0 : 0 ≤ rgb.y) (hy1 : rgb.y ≤ 1)
    (hz0 : 0 ≤ rgb.z) (hz1 : rgb.z ≤ 1) :
    daltonise rgb t 0 = rgb := by
  have key : daltonise rgb t 0 = rgb.clamp := by
    cases t <;>
      simp only [daltonise, Vec3.mul, Vec3.sub, Vec3.add, Mat3.mul_vec, Vec3.dot] <;>
      norm_num
  rw [key]
  exact Vec3.clamp_eq_self rgb hx0 hx1 hy0 hy1 hz0 hz1

/-- Witness for C10 at the midpoint gray color. -/
theorem daltonise_strength_zero_exact_witness :
    daltonise ⟨1/2, 1/2, 1/2⟩ CBType.protanope 0 = ⟨1/2, 1/2, 1/2⟩ :=
  daltonise_strength_zero_exact CBType.protanope ⟨1/2, 1/2, 1/2⟩
    (by norm_num) (by norm_num) (by norm_num) (by norm_num) (by norm_num) (by norm_num)

/-! ## Claim C4 -/

/-- C4: for unit-range input and strength, every component of every
operation's output lies in `[0, 1]`, and every channel of every `create_lut`
entry lies in `[0, 1]`. -/
theorem outputs_in_unit_range (t : CBType) (op : Operation) (s : ℝ) (rgb : Vec3)
    (hrgb : (0 ≤ rgb.x ∧ rgb.x ≤ 1) ∧ (0 ≤ rgb.y ∧ rgb.y ≤ 1) ∧ (0 ≤ rgb.z ∧ rgb.z ≤ 1))
    (hs : 0 ≤ s ∧ s ≤ 1) :
    ((0 ≤ (transform_func op rgb t s).x ∧ (transform_func op rgb t s).x ≤ 1) ∧
     (0 ≤ (transform_func op rgb t s).y ∧ (transform_func op rgb t s).y ≤ 1) ∧
     (0 ≤ (transform_func op rgb t s).z ∧ (transform_func op rgb t s).z ≤ 1)) ∧
    ∀ N : ℕ, ∀ e ∈ create_lut t op s N,
      (0 ≤ e.1 ∧ e.1 ≤ 1) ∧ (0 ≤ e.2.1 ∧ e.2.1 ≤ 1) ∧ (0 ≤ e.2.2 ∧ e.2.2 ≤ 1) := by
  constructor
  · cases op
    · obtain ⟨c, hc⟩ : ∃ c, (RGB_FROM_LMS.mul_vec
          (simulate_channel (channel_map t) s (LMS_FROM_RGB.mul_vec (to_linear rgb)))).clamp = c :=
        ⟨_, rfl⟩
      have hu := Vec3.clamp_unit (RGB_FROM_LMS.mul_vec
          (simulate_channel (channel_map t) s (LMS_FROM_RGB.mul_vec (to_linear rgb))))
      rw [hc] at hu
      simpa [transform_func, simulate, hc] using
        from_linear_unit c hu.1.1 hu.1.2 hu.2.1.1 hu.2.1.2 hu.2.2.1 hu.2.2.2
    · simpa [transform_func, daltonise] using Vec3.clamp_unit _
    · obtain ⟨c, hc⟩ : ∃ c, (RGB_FROM_LMS.mul_vec
          ((LMS_FROM_RGB.mul_vec (to_linear rgb)).add
            ((correct_multiplier (channel_map t) s).mul
              (s * ((LMS_FROM_RGB.mul_vec (to_linear rgb)).get (channel_map t) -
                (LMS_SIMULATE.row (channel_map t)).dot
                  (LMS_FROM_RGB.mul_vec (to_linear rgb))))))).clamp = c := ⟨_, rfl⟩
      have hu := Vec3.clamp_unit (RGB_FROM_LMS.mul_vec
          ((LMS_FROM_RGB.mul_vec (to_linear rgb)).add
            ((correct_multiplier (channel_map t) s).mul
              (s * ((LMS_FROM_RGB.mul_vec (to_linear rgb)).get (channel_map t) -
                (LMS_SIMULATE.row (channel_map t)).dot
                  (LMS_FROM_RGB.mul_vec (to_linear rgb)))))))
      rw [hc] at hu
      simpa [transform_func, correct, hc] using
        from_linear_unit c hu.1.1 hu.1.2 hu.2.1.1 hu.2.1.2 hu.2.2.1 hu.2.2.2
  · intro N e he
    simp only [create_lut, List.mem_map] at he
    obtain ⟨v, -, rfl⟩ := he
    simpa [Vec3.to_tuple] using Vec3.clamp_unit ((transform_func op) v t s)

/-- Witness for C4 at the midpoint gray color with full strength. -/
theorem outputs_in_unit_range_witness :
    ((0 ≤ (transform_func Operation.simulate ⟨1/2, 1/2, 1/2⟩ CBType.protanope 1).x ∧
      (transform_func Operation.simulate ⟨1/2, 1/2, 1/2⟩ CBType.protanope 1).x ≤ 1) ∧
     (0 ≤ (transform_func Operation.simulate ⟨1/2, 1/2, 1/2⟩ CBType.protanope 1).y ∧
      (transform_func Operation.simulate ⟨1/2, 1/2, 1/2⟩ CBType.protanope 1).y ≤ 1) ∧
     (0 ≤ (transform_func Operation.simulate ⟨1/2, 1/2, 1/2⟩ CBType.protanope 1).z ∧
      (transform_func Operation.simulate ⟨1/2, 1/2, 1/2⟩ CBType.protanope 1).z ≤ 1)) ∧
    ∀ N : ℕ, ∀ e ∈ create_lut CBType.protanope Operation.simulate 1 N,
      (0 ≤ e.1 ∧ e.1 ≤ 1) ∧ (0 ≤ e.2.1 ∧ e.2.1 ≤ 1) ∧ (0 ≤ e.2.2 ∧ e.2.2 ≤ 1) :=
  outputs_in_unit_range CBType.protanope Operation.simulate 1 ⟨1/2, 1/2, 1/2⟩
    (by norm_num) (by norm_num)


/-! ## Claim C2: sampler structure -/

/-- Length of a flatMap whose blocks all have the same length. -/
theorem flatMap_length_const {α β : Type} (l : List α) (f : α → List β) (k : ℕ)
    (h : ∀ a ∈ l, (f a).length = k) : (l.flatMap f).length = l.length * k := by
  induction l with
  | nil => simp
  | cons a tl ih =>
    rw [List.flatMap_cons, List.length_append, h a (List.mem_cons_self a tl),
      ih fun b hb => h b (List.mem_cons_of_mem a hb), List.length_cons]
    ring

/-- Indexing into a flatMap whose blocks all have the same length `k`:
position `i * k + j` with `j < k` reads element `j` of block `i`. -/
theorem flatMap_getElem_const {α β : Type} (l : List α) (f : α → List β) (k : ℕ)
    (h : ∀ a ∈ l, (f a).length = k) (i j : ℕ) (hj : j < k) :
    (l.flatMap f)[i * k + j]? = l[i]?.bind fun a => (f a)[j]? := by
  induction l generalizing i with
  | nil => simp
  | cons a tl ih =>
    have hlen : (f a).length = k := h a (List.mem_cons_self a tl)
    rw [List.flatMap_cons, List.getElem?_append]
    cases i with
    | zero =>
      rw [if_pos (by omega)]
      simp
    | succ i =>
      rw [if_neg (by push_neg; rw [hlen]; calc
        k ≤ (i + 1) * k := by nlinarith
        _ ≤ (i + 1) * k + j := by omega)]
      rw [hlen]
      have harith : (i + 1) * k + j - k = i * k + j := by
        have : (i + 1) * k = i * k + k := by ring
        omega
      rw [harith, ih fun b hb => h b (List.mem_cons_of_mem a hb)]
      simp

/-- Each middle-level block of `lut_inputs` (one `r_idx` value) holds exactly
`N * N` samples. -/
theorem lut_inputs_block_length (N : ℕ) (r_idx : ℕ) :
    ((List.range N).flatMap fun g_idx =>
      (List.range N).map fun b_idx => cell_center N r_idx g_idx b_idx).length = N * N := by
  have h : ∀ a ∈ List.range N,
      ((List.range N).map fun b_idx => cell_center N r_idx a b_idx).length = N :=
    fun a _ => by rw [List.length_map, List.length_range]
  rw [flatMap_length_const _ _ N h, List.length_range]

/-- The `lut_inputs` grid has exactly `N³` entries. -/
theorem lut_inputs_length (N : ℕ) : (lut_inputs N).length = N ^ 3 := by
  have h : ∀ a ∈ List.range N,
      ((List.range N).flatMap fun g_idx =>
        (List.range N).map fun b_idx => cell_center N a g_idx b_idx).length = N * N :=
    fun a _ => lut_inputs_block_length N a
  rw [lut_inputs, flatMap_length_const _ _ (N * N) h, List.length_range]
  ring

/-- Reading `lut_inputs` at flat position `r_idx·N² + g_idx·N + b_idx` yields
the cell center for that index triple. -/
theorem lut_inputs_getElem (N r_idx g_idx b_idx : ℕ)
    (hr : r_idx < N) (hg : g_idx < N) (hb : b_idx < N) :
    (lut_inputs N)[r_idx * N ^ 2 + g_idx * N + b_idx]? =
      some (cell_center N r_idx g_idx b_idx) := by
  have houter : ∀ a ∈ List.range N,
      ((List.range N).flatMap fun g_idx =>
        (List.range N).map fun b_idx => cell_center N a g_idx b_idx).length = N * N :=
    fun a _ => lut_inputs_block_length N a
  have hinner : ∀ a ∈ List.range N,
      ((List.range N).map fun b_idx => cell_center N r_idx a b_idx).length = N :=
    fun a _ => by rw [List.length_map, List.length_range]
  have hlt : g_idx * N + b_idx < N * N := by
    calc g_idx * N + b_idx < g_idx * N + N := by omega
      _ = (g_idx + 1) * N := by ring
      _ ≤ N * N := Nat.mul_le_mul_right N hg
  have hidx : r_idx * N ^ 2 + g_idx * N + b_idx = r_idx * (N * N) + (g_idx * N + b_idx) := by
    ring
  rw [lut_inputs, hidx, flatMap_getElem_const _ _ (N * N) houter r_idx _ hlt,
    List.getElem?_range hr, Option.some_bind,
    flatMap_getElem_const _ _ N hinner g_idx b_idx hb,
    List.getElem?_range hg, Option.some_bind, List.getElem?_map, List.getElem?_range hb]
  rfl

/-- C2: for every positive resolution, deficiency type, operation and
strength, `create_lut` produces exactly `N³` output colors, one per sampled
grid input in iteration order (R slowest, B fastest); the sample for index
triple `(r_idx, g_idx, b_idx)` sits at flat position
`r_idx·N² + g_idx·N + b_idx` and is the cell center `(idx + 0.5) / N` per
channel; for `N = 2` the 8 inputs occur in the stated order. -/
theorem create_lut_sampling (N : ℕ) (hN : 0 < N) (t : CBType) (op : Operation) (s : ℝ) :
    (create_lut t op s N).length = N ^ 3 ∧
    create_lut t op s N = (lut_inputs N).map
      (fun v => ((transform_func op) v t s).clamp.to_tuple) ∧
    (∀ r_idx g_idx b_idx : ℕ, r_idx < N → g_idx < N → b_idx < N →
      (lut_inputs N)[r_idx * N ^ 2 + g_idx * N + b_idx]? =
        some ⟨((r_idx : ℝ) + 0.5) / N, ((g_idx : ℝ) + 0.5) / N, ((b_idx : ℝ) + 0.5) / N⟩) ∧
    lut_inputs 2 = [⟨0.25, 0.25, 0.25⟩, ⟨0.25, 0.25, 0.75⟩, ⟨0.25, 0.75, 0.25⟩,
      ⟨0.25, 0.75, 0.75⟩, ⟨0.75, 0.25, 0.25⟩, ⟨0.75, 0.25, 0.75⟩, ⟨0.75, 0.75, 0.25⟩,
      ⟨0.75, 0.75, 0.75⟩] := by
  refine ⟨?_, rfl, ?_, ?_⟩
  · rw [create_lut, List.length_map, lut_inputs_length]
  · intro ri gi bi hri hgi hbi
    rw [lut_inputs_getElem N ri gi bi hri hgi hbi]
    simp only [cell_center, Option.some.injEq, Vec3.mk.injEq]
    refine ⟨by ring, by ring, by ring⟩
  · have h2 : List.range 2 = [0, 1] := rfl
    rw [lut_inputs, h2]
    simp only [List.flatMap_cons, List.flatMap_nil, List.map_cons, List.map_nil,
      List.append_nil, List.cons_append, List.nil_append, List.cons.injEq, Vec3.mk.injEq,
      cell_center]
    norm_num

/-- Witness for C2 at resolution 2 (the resolution is required positive). -/
theorem create_lut_sampling_witness :
    (create_lut CBType.protanope Operation.simulate 1 2).length = 2 ^ 3 ∧
    create_lut CBType.protanope Operation.simulate 1 2 = (lut_inputs 2).map
      (fun v => ((transform_func Operation.simulate) v CBType.protanope 1).clamp.to_tuple) ∧
    (∀ r_idx g_idx b_idx : ℕ, r_idx < 2 → g_idx < 2 → b_idx < 2 →
      (lut_inputs 2)[r_idx * 2 ^ 2 + g_idx * 2 + b_idx]? =
        some ⟨((r_idx : ℝ) + 0.5) / 2, ((g_idx : ℝ) + 0.5) / 2, ((b_idx : ℝ) + 0.5) / 2⟩) ∧
    lut_inputs 2 = [⟨0.25, 0.25, 0.25⟩, ⟨0.25, 0.25, 0.75⟩, ⟨0.25, 0.75, 0.25⟩,
      ⟨0.25, 0.75, 0.75⟩, ⟨0.75, 0.25, 0.25⟩, ⟨0.75, 0.25, 0.75⟩, ⟨0.75, 0.75, 0.25⟩,
      ⟨0.75, 0.75, 0.75⟩] :=
  create_lut_sampling 2 (by norm_num) CBType.protanope Operation.simulate 1

/-! ## Claim C3: cube file format -/

/-- The padded fractional rendering always has exactly `k` characters. -/
theorem pad_digits_length (k n : ℕ) : (pad_digits k n).length = k := by
  simp [pad_digits, String.length]

/-- Every character of the padded fractional rendering is a decimal digit. -/
theorem pad_digits_isDigit (k n : ℕ) : ∀ c ∈ (pad_digits k n).data, c.isDigit := by
  intro c hc
  simp only [pad_digits, String.data, List.mem_map] at hc
  obtain ⟨i, -, rfl⟩ := hc
  have hd : n / 10 ^ i % 10 < 10 := Nat.mod_lt _ (by norm_num)
  set d := n / 10 ^ i % 10 with hdd
  interval_cases d <;> decide

/-- Fixed-point formatting is an integer part, a dot, and exactly `k` digit
characters. -/
theorem fmt_fixed_shape (k : ℕ) (x : ℝ) : ∃ ip : ℕ, ∃ frac : String,
    fmt_fixed k x = toString ip ++ "." ++ frac ∧ frac.length = k ∧
    ∀ c ∈ frac.data, c.isDigit :=
  ⟨((round (x * 10 ^ k) : ℤ).toNat) / 10 ^ k, pad_digits k (((round (x * 10 ^ k) : ℤ).toNat) % 10 ^ k),
    rfl, pad_digits_length _ _, pad_digits_isDigit _ _⟩

/-- C3: the written cube file is exactly a `TITLE` line, a `LUT_3D_SIZE` line
declaring `N`, and — when the LUT has `N³` samples — exactly `N³` data lines
in the sampler's order, each the three channel values separated by single
spaces and formatted with exactly 6 digits after the decimal point; there
are no blank lines and no trailing lines. -/
theorem write_cube_file_format (lut_data : List (ℝ × ℝ × ℝ)) (N : ℕ) (title : String)
    (h : lut_data.length = N ^ 3) :
    write_cube_file lut_data N title =
      ("TITLE \"" ++ title ++ "\"") :: ("LUT_3D_SIZE " ++ toString N) ::
        lut_data.map (fun t =>
          fmt_fixed 6 t.1 ++ " " ++ fmt_fixed 6 t.2.1 ++ " " ++ fmt_fixed 6 t.2.2) ∧
    (write_cube_file lut_data N title).length = 2 + N ^ 3 ∧
    (∀ i : ℕ, ((write_cube_file lut_data N title).drop 2)[i]? =
      lut_data[i]?.map fun t =>
        fmt_fixed 6 t.1 ++ " " ++ fmt_fixed 6 t.2.1 ++ " " ++ fmt_fixed 6 t.2.2) ∧
    (∀ x : ℝ, ∃ ip : ℕ, ∃ frac : String,
      fmt_fixed 6 x = toString ip ++ "." ++ frac ∧ frac.length = 6 ∧
      ∀ c ∈ frac.data, c.isDigit) ∧
    ∀ line ∈ write_cube_file lut_data N title, line ≠ "" := by
  refine ⟨rfl, ?_, ?_, fun x => fmt_fixed_shape 6 x, ?_⟩
  · rw [write_cube_file, List.length_cons, List.length_cons, List.length_map, h]
    omega
  · intro i
    rw [write_cube_file, List.drop_succ_cons, List.drop_succ_cons, List.drop_zero,
      List.getElem?_map]
  · intro line hline
    rw [write_cube_file, List.mem_cons, List.mem_cons, List.mem_map] at hline
    have hlen : line.length ≠ 0 → line ≠ "" := by
      intro hl he
      rw [he] at hl
      exact hl rfl
    rcases hline with rfl | rfl | ⟨t, -, rfl⟩
    · apply hlen
      rw [String.length_append, String.length_append]
      have h7 : "TITLE \"".length = 7 := by decide
      omega
    · apply hlen
      rw [String.length_append]
      have h12 : "LUT_3D_SIZE ".length = 12 := by decide
      omega
    · apply hlen
      rw [String.length_append, String.length_append, String.length_append,
        String.length_append]
      have hsp : " ".length = 1 := by decide
      omega

/-- Witness for C3: a one-entry LUT of size 1. -/
theorem write_cube_file_format_witness :
    write_cube_file [((0:ℝ), (0:ℝ), (0:ℝ))] 1 "T" =
      ("TITLE \"" ++ "T" ++ "\"") :: ("LUT_3D_SIZE " ++ toString 1) ::
        [((0:ℝ), (0:ℝ), (0:ℝ))].map (fun t =>
          fmt_fixed 6 t.1 ++ " " ++ fmt_fixed 6 t.2.1 ++ " " ++ fmt_fixed 6 t.2.2) ∧
    (write_cube_file [((0:ℝ), (0:ℝ), (0:ℝ))] 1 "T").length = 2 + 1 ^ 3 ∧
    (∀ i : ℕ, ((write_cube_file [((0:ℝ), (0:ℝ), (0:ℝ))] 1 "T").drop 2)[i]? =
      [((0:ℝ), (0:ℝ), (0:ℝ))][i]?.map fun t =>
        fmt_fixed 6 t.1 ++ " " ++ fmt_fixed 6 t.2.1 ++ " " ++ fmt_fixed 6 t.2.2) ∧
    (∀ x : ℝ, ∃ ip : ℕ, ∃ frac : String,
      fmt_fixed 6 x = toString ip ++ "." ++ frac ∧ frac.length = 6 ∧
      ∀ c ∈ frac.data, c.isDigit) ∧
    ∀ line ∈ write_cube_file [((0:ℝ), (0:ℝ), (0:ℝ))] 1 "T", line ≠ "" :=
  write_cube_file_format [((0:ℝ), (0:ℝ), (0:ℝ))] 1 "T" (by norm_num)

/-! ## Claims C5 and C6: entry-point validation -/

/-- Recognition of a deficiency-type string fails exactly on strings outside
`valid_cb_types`. -/
theorem to_cb_type_none_iff (s : String) : to_cb_type s = none ↔ s ∉ valid_cb_types := by
  rw [to_cb_type, valid_cb_types]
  by_cases h1 : s = "protanope" <;> by_cases h2 : s = "deuteranope" <;>
    by_cases h3 : s = "tritanope" <;> simp [h1, h2, h3]

/-- Recognition of an operation string fails exactly on strings outside
`valid_operations`. -/
theorem to_operation_none_iff (s : String) : to_operation s = none ↔ s ∉ valid_operations := by
  rw [to_operation, valid_operations]
  by_cases h1 : s = "simulate" <;> by_cases h2 : s = "daltonise" <;>
    by_cases h3 : s = "correct" <;> simp [h1, h2, h3]

/-- C5: `generate_lut` validates its parameters in check order and, for the
first one that fails, returns the validation error naming exactly that
parameter: the cb_type message when the deficiency type is not one of its
three variants; otherwise the operation message when the operation is not
one of its three variants; otherwise the strength message when the strength
lies outside `[0, 1]`; otherwise the lut_size message when the resolution is
not in {16, 32, 64}.  In every such case the result is an error carrying no
file content, so no output file is produced. -/
theorem generate_lut_validation (cb op : String) (s : ℝ) (p : Option String) (n : ℕ) :
    (cb ∉ valid_cb_types →
      generate_lut cb op s p n =
        .error "cb_type must be one of [protanope, deuteranope, tritanope]") ∧
    (cb ∈ valid_cb_types → op ∉ valid_operations →
      generate_lut cb op s p n =
        .error "operation must be one of [simulate, daltonise, correct]") ∧
    (cb ∈ valid_cb_types → op ∈ valid_operations → ¬ (0.0 ≤ s ∧ s ≤ 1.0) →
      generate_lut cb op s p n = .error "strength must be between 0.0 and 1.0") ∧
    (cb ∈ valid_cb_types → op ∈ valid_operations → (0.0 ≤ s ∧ s ≤ 1.0) →
      ¬ (n = 16 ∨ n = 32 ∨ n = 64) →
      generate_lut cb op s p n = .error "lut_size must be 16, 32, or 64") := by
  have hsome_cb : cb ∈ valid_cb_types → ∃ c, to_cb_type cb = some c := by
    intro hcb
    cases h : to_cb_type cb with
    | none => exact absurd ((to_cb_type_none_iff cb).mp h) (not_not_intro hcb)
    | some c => exact ⟨c, rfl⟩
  have hsome_op : op ∈ valid_operations → ∃ o, to_operation op = some o := by
    intro hop
    cases h : to_operation op with
    | none => exact absurd ((to_operation_none_iff op).mp h) (not_not_intro hop)
    | some o => exact ⟨o, rfl⟩
  refine ⟨?_, ?_, ?_, ?_⟩
  · intro hcb
    have hnone : to_cb_type cb = none := (to_cb_type_none_iff cb).mpr hcb
    simp only [generate_lut, hnone]
  · intro hcb hop
    obtain ⟨c, hc⟩ := hsome_cb hcb
    have hnone : to_operation op = none := (to_operation_none_iff op).mpr hop
    simp only [generate_lut, hc, hnone]
  · intro hcb hop hs
    obtain ⟨c, hc⟩ := hsome_cb hcb
    obtain ⟨o, ho⟩ := hsome_op hop
    simp only [generate_lut, hc, ho, if_pos hs]
  · intro hcb hop hs hn
    obtain ⟨c, hc⟩ := hsome_cb hcb
    obtain ⟨o, ho⟩ := hsome_op hop
    simp only [generate_lut, hc, ho, if_neg (not_not_intro hs), if_pos hn]

/-- Witness for C5: strength 1.5 with otherwise-valid parameters is rejected
with exactly the strength message. -/
theorem generate_lut_validation_witness :
    generate_lut "protanope" "simulate" (1.5 : ℝ) none 32 =
      .error "strength must be between 0.0 and 1.0" :=
  (generate_lut_validation "protanope" "simulate" (1.5 : ℝ) none 32).2.2.1
    (by simp [valid_cb_types]) (by simp [valid_operations]) (by norm_num)

/-- Counterexample to C6 as stated: the spec spelling `"daltonize"` is NOT
accepted by the entry point; the code validates against the list
`["simulate", "daltonise", "correct"]`, so `"daltonize"` raises the
operation validation error. -/
theorem daltonize_spelling_rejected :
    generate_lut "protanope" "daltonize" 1 none 32 =
      .error "operation must be one of [simulate, daltonise, correct]" := by
  simp [generate_lut, to_cb_type, to_operation]

/-- C6 (amended): the operation strings accepted by `generate_lut` are
exactly `"simulate"`, `"daltonise"` (with an s, not the spec's
`"daltonize"`), and `"correct"`: these three succeed, and any other
operation string yields a validation error rather than a result. -/
theorem generate_lut_operation_values (op : String) :
    (∃ v, generate_lut "protanope" op 1 none 32 = .ok v) ↔
      (op = "simulate" ∨ op = "daltonise" ∨ op = "correct") := by
  have hcb : to_cb_type "protanope" = some CBType.protanope := by
    simp [to_cb_type]
  constructor
  · rintro ⟨v, hv⟩
    by_contra hne
    push_neg at hne
    have hnone : to_operation op = none := by
      simp [to_operation, hne.1, hne.2.1, hne.2.2]
    simp [generate_lut, hcb, hnone] at hv
  · intro h
    have hstr : ¬ ¬ ((0.0 : ℝ) ≤ 1 ∧ (1 : ℝ) ≤ 1.0) := by norm_num
    have hsz : ¬ ¬ ((32 : ℕ) = 16 ∨ (32 : ℕ) = 32 ∨ (32 : ℕ) = 64) := by norm_num
    rcases h with rfl | rfl | rfl
    · have hop : to_operation "simulate" = some Operation.simulate := by
        simp [to_operation]
      simp only [generate_lut, hcb, hop, if_neg hstr, if_neg hsz]
      exact ⟨_, rfl⟩
    · have hop : to_operation "daltonise" = some Operation.daltonise := by
        simp [to_operation]
      simp only [generate_lut, hcb, hop, if_neg hstr, if_neg hsz]
      exact ⟨_, rfl⟩
    · have hop : to_operation "correct" = some Operation.correct := by
        simp [to_operation]
      simp only [generate_lut, hcb, hop, if_neg hstr, if_neg hsz]
      exact ⟨_, rfl⟩

/-! ## Real-power comparison toolkit for the gamma-curve bounds -/

/-- Raising to the rational power `p / q` commutes with natural powers:
`(x ^ (p/q)) ^ q = x ^ p` for nonnegative `x`. -/
theorem rpow_div_pow {x : ℝ} (hx : 0 ≤ x) (p q : ℕ) (hq : q ≠ 0) :
    (x ^ ((p : ℝ) / q)) ^ (q : ℕ) = x ^ (p : ℕ) := by
  have hqr : ((p : ℝ) / q) * q = p := by
    field_simp
  rw [← Real.rpow_natCast (x ^ ((p : ℝ) / q)) q, ← Real.rpow_mul hx, hqr, Real.rpow_natCast]

/-- Comparison of a rational real power against a bound reduces to a
comparison of natural powers. -/
theorem rpow_div_le_iff {x t : ℝ} (hx : 0 ≤ x) (ht : 0 ≤ t) (p q : ℕ) (hq : q ≠ 0) :
    x ^ ((p : ℝ) / q) ≤ t ↔ x ^ p ≤ t ^ q := by
  rw [← pow_le_pow_iff_left₀ (Real.rpow_nonneg hx _) ht hq, rpow_div_pow hx p q hq]

/-- Lower-bound version of `rpow_div_le_iff`. -/
theorem le_rpow_div_iff {x t : ℝ} (hx : 0 ≤ x) (ht : 0 ≤ t) (p q : ℕ) (hq : q ≠ 0) :
    t ≤ x ^ ((p : ℝ) / q) ↔ t ^ q ≤ x ^ p := by
  rw [← pow_le_pow_iff_left₀ ht (Real.rpow_nonneg hx _) hq, rpow_div_pow hx p q hq]

/-- Strict lower-bound version of `rpow_div_le_iff`. -/
theorem lt_rpow_div_iff {x t : ℝ} (hx : 0 ≤ x) (ht : 0 ≤ t) (p q : ℕ) (hq : q ≠ 0) :
    t < x ^ ((p : ℝ) / q) ↔ t ^ q < x ^ p := by
  rw [← pow_lt_pow_iff_left₀ ht (Real.rpow_nonneg hx _) hq, rpow_div_pow hx p q hq]

/-- Bernoulli-based increment bound for the gamma-encoding exponent `5/11`:
for `0 < x ≤ y`, the increment of `· ^ (5/11)` is at most
`5/11 · (y - x) / x ^ (6/11)`. -/
theorem rpow_five_elevenths_increment {x y : ℝ} (hx : 0 < x) (hxy : x ≤ y) :
    y ^ ((5 : ℝ) / 11) - x ^ ((5 : ℝ) / 11) ≤
      (5 : ℝ) / 11 * ((y - x) / x ^ ((6 : ℝ) / 11)) := by
  have hy : 0 < y := lt_of_lt_of_le hx hxy
  have hs0 : (0 : ℝ) ≤ (y - x) / x := div_nonneg (by linarith) hx.le
  have hber := rpow_one_add_le_one_add_mul_self (s := (y - x) / x)
    (by linarith) (p := (5 : ℝ) / 11) (by norm_num) (by norm_num)
  have h1 : (1 : ℝ) + (y - x) / x = y / x := by
    field_simp
  rw [h1] at hber
  have h2 : y ^ ((5 : ℝ) / 11) = x ^ ((5 : ℝ) / 11) * (y / x) ^ ((5 : ℝ) / 11) := by
    rw [← Real.mul_rpow hx.le (div_nonneg hy.le hx.le)]
    congr 1
    field_simp
  have hx6 : (0 : ℝ) < x ^ ((6 : ℝ) / 11) := Real.rpow_pos_of_pos hx _
  have hx5 : (0 : ℝ) ≤ x ^ ((5 : ℝ) / 11) := Real.rpow_nonneg hx.le _
  have hsplit : x ^ ((5 : ℝ) / 11) * x ^ ((6 : ℝ) / 11) = x := by
    rw [← Real.rpow_add hx]
    norm_num
  have hxne : x ≠ 0 := ne_of_gt hx
  have h6ne : x ^ ((6 : ℝ) / 11) ≠ 0 := ne_of_gt hx6
  have hfrac : x ^ ((5 : ℝ) / 11) / x = (x ^ ((6 : ℝ) / 11))⁻¹ := by
    field_simp
    linarith [hsplit]
  calc y ^ ((5 : ℝ) / 11) - x ^ ((5 : ℝ) / 11)
      = x ^ ((5 : ℝ) / 11) * ((y / x) ^ ((5 : ℝ) / 11) - 1) := by rw [h2]; ring
    _ ≤ x ^ ((5 : ℝ) / 11) * ((5 : ℝ) / 11 * ((y - x) / x)) := by
        apply mul_le_mul_of_nonneg_left _ hx5
        linarith
    _ = (5 : ℝ) / 11 * ((y - x) * (x ^ ((5 : ℝ) / 11) / x)) := by ring
    _ = (5 : ℝ) / 11 * ((y - x) / x ^ ((6 : ℝ) / 11)) := by
        rw [hfrac]
        ring

/-- Two nonnegative reals within `eps` of each other, the reference at least
`xmin + eps` for a positive `xmin` whose 6/11-power is at least `rlb`, have
5/11-powers within `5/11 · eps / rlb` of each other. -/
theorem rpow_close_of_close {u v : ℝ} (xmin rlb eps bound : ℝ)
    (hxmin : 0 < xmin) (hrlb : 0 < rlb) (heps : 0 ≤ eps)
    (hpow : rlb ^ (11 : ℕ) ≤ xmin ^ (6 : ℕ))
    (hu : 0 ≤ u) (hv : xmin + eps ≤ v) (hd : |u - v| ≤ eps)
    (hb : (5 : ℝ) / 11 * (eps / rlb) ≤ bound) :
    |u ^ ((5 : ℝ) / 11) - v ^ ((5 : ℝ) / 11)| ≤ bound := by
  have hroot : ∀ x : ℝ, xmin ≤ x → rlb ≤ x ^ ((6 : ℝ) / 11) := by
    intro x hxx
    have h := (le_rpow_div_iff (x := x) (t := rlb) (by linarith) hrlb.le 6 11
      (by norm_num)).mpr
      (by calc rlb ^ 11 ≤ xmin ^ 6 := hpow
            _ ≤ x ^ 6 := pow_le_pow_left hxmin.le hxx 6)
    simpa using h
  have hstep : ∀ x y : ℝ, xmin ≤ x → x ≤ y → y - x ≤ eps →
      y ^ ((5 : ℝ) / 11) - x ^ ((5 : ℝ) / 11) ≤ bound := by
    intro x y hxx hxy hyx
    have hx0 : 0 < x := lt_of_lt_of_le hxmin hxx
    have h1 := rpow_five_elevenths_increment hx0 hxy
    have h2 : (y - x) / x ^ ((6 : ℝ) / 11) ≤ eps / rlb :=
      div_le_div heps hyx hrlb (hroot x hxx)
    calc y ^ ((5 : ℝ) / 11) - x ^ ((5 : ℝ) / 11)
        ≤ (5 : ℝ) / 11 * ((y - x) / x ^ ((6 : ℝ) / 11)) := h1
      _ ≤ (5 : ℝ) / 11 * (eps / rlb) := by linarith
      _ ≤ bound := hb
  rw [abs_le] at hd
  rw [abs_le]
  rcases le_total u v with huv | huv
  · constructor
    · have := hstep u v (by linarith) huv (by linarith)
      linarith
    · have hb0 : 0 ≤ bound := le_trans (by positivity) hb
      have := Real.rpow_le_rpow hu huv (by norm_num : (0:ℝ) ≤ 5/11)
      linarith
  · constructor
    · have hb0 : 0 ≤ bound := le_trans (by positivity) hb
      have hv0 : 0 ≤ v := by linarith
      have := Real.rpow_le_rpow hv0 huv (by norm_num : (0:ℝ) ≤ 5/11)
      linarith
    · have := hstep v u (by linarith) huv (by linarith)
      linarith

/-- Uniform closeness bound on all of `[0, 1]`: reals within `3.66e-8` of
each other have 5/11-powers within `1e-3` of each other. -/
theorem rpow_close_unit {u v : ℝ} (hu : 0 ≤ u) (hv : 0 ≤ v)
    (hd : |u - v| ≤ 366 / 10 ^ 10) :
    |u ^ ((5 : ℝ) / 11) - v ^ ((5 : ℝ) / 11)| ≤ 1 / 1000 := by
  by_cases hbig : 2 * (366 / 10 ^ 10 : ℝ) ≤ v
  · exact rpow_close_of_close (366 / 10 ^ 10) (21961 / 250000000)
      (366 / 10 ^ 10) (1 / 1000) (by norm_num) (by norm_num) (by norm_num)
      (by norm_num) hu (by linarith) hd (by norm_num)
  · push_neg at hbig
    rw [abs_le] at hd
    have hu3 : u ≤ 3 * (366 / 10 ^ 10 : ℝ) := by linarith
    have hv3 : v ≤ 3 * (366 / 10 ^ 10 : ℝ) := by linarith
    have hcap : (3 * (366 / 10 ^ 10 : ℝ)) ^ ((5 : ℝ) / 11) ≤ 7 / 10 ^ 4 := by
      have h := (rpow_div_le_iff (x := 3 * (366 / 10 ^ 10 : ℝ)) (t := 7 / 10 ^ 4)
        (by norm_num) (by norm_num) 5 11 (by norm_num)).mpr (by norm_num)
      simpa using h
    have hup : u ^ ((5 : ℝ) / 11) ≤ 7 / 10 ^ 4 :=
      le_trans (Real.rpow_le_rpow hu hu3 (by norm_num)) hcap
    have hvp : v ^ ((5 : ℝ) / 11) ≤ 7 / 10 ^ 4 :=
      le_trans (Real.rpow_le_rpow hv hv3 (by norm_num)) hcap
    have hun : 0 ≤ u ^ ((5 : ℝ) / 11) := Real.rpow_nonneg hu _
    have hvn : 0 ≤ v ^ ((5 : ℝ) / 11) := Real.rpow_nonneg hv _
    rw [abs_le]
    constructor <;> linarith

/-- Clamping a scalar already in `[0, 1]` is the identity. -/
theorem clamp_scalar_id {w : ℝ} (h0 : 0 ≤ w) (h1 : w ≤ 1) :
    max 0.0 (min 1.0 w) = w := by
  rw [min_eq_right (by linarith), max_eq_right (by linarith)]

/-- Clamping moves a scalar no further from any reference point already in
`[0, 1]`. -/
theorem clamp_scalar_close {u v e : ℝ} (hv0 : 0 ≤ v) (hv1 : v ≤ 1)
    (hd : |u - v| ≤ e) : |max 0.0 (min 1.0 u) - v| ≤ e := by
  rw [abs_le] at hd
  have he : 0 ≤ e := by linarith
  rw [abs_le]
  rcases le_total u 0 with hu | hu
  · rw [min_eq_right (by linarith), max_eq_left (by linarith)]
    constructor <;> linarith
  · rcases le_total u 1 with hu1 | hu1
    · rw [min_eq_right (by linarith), max_eq_right (by linarith)]
      exact ⟨by linarith, by linarith⟩
    · rw [min_eq_left (by linarith), max_eq_right (by norm_num)]
      constructor <;> linarith

/-- The primary LMS round trip `RGB_FROM_LMS ∘ LMS_FROM_RGB` moves every
component of a unit-range vector by at most `3.66e-8`. -/
theorem round_trip_close (w : Vec3)
    (hx0 : 0 ≤ w.x) (hx1 : w.x ≤ 1) (hy0 : 0 ≤ w.y) (hy1 : w.y ≤ 1)
    (hz0 : 0 ≤ w.z) (hz1 : w.z ≤ 1) :
    |(RGB_FROM_LMS.mul_vec (LMS_FROM_RGB.mul_vec w)).x - w.x| ≤ 366 / 10 ^ 10 ∧
    |(RGB_FROM_LMS.mul_vec (LMS_FROM_RGB.mul_vec w)).y - w.y| ≤ 366 / 10 ^ 10 ∧
    |(RGB_FROM_LMS.mul_vec (LMS_FROM_RGB.mul_vec w)).z - w.z| ≤ 366 / 10 ^ 10 := by
  simp only [Mat3.mul_vec, Vec3.dot, LMS_FROM_RGB, RGB_FROM_LMS]
  refine ⟨?_, ?_, ?_⟩ <;> rw [abs_le] <;> constructor <;> nlinarith

/-- Writing back the unchanged affected component is the identity. -/
theorem Vec3.put_get_self (v : Vec3) (c : Fin 3) (r : ℝ) :
    v.put c (v.get c + 0 * r) = v := by
  fin_cases c <;> simp [Vec3.put, Vec3.get]

/-- At strength 0 `simulate` reduces to the bare gamma-decode, LMS round
trip, clamp, gamma-encode pipeline. -/
theorem simulate_zero (rgb : Vec3) (t : CBType) :
    simulate rgb t 0 =
      from_linear ((RGB_FROM_LMS.mul_vec (LMS_FROM_RGB.mul_vec (to_linear rgb))).clamp) := by
  simp only [simulate, simulate_channel]
  rw [Vec3.put_get_self]

/-- At strength 0 the scaled error of `correct` vanishes, so `correct` also
reduces to the bare round-trip pipeline. -/
theorem correct_zero (rgb : Vec3) (t : CBType) :
    correct rgb t 0 =
      from_linear ((RGB_FROM_LMS.mul_vec (LMS_FROM_RGB.mul_vec (to_linear rgb))).clamp) := by
  have hz : ∀ v w : Vec3, ∀ r : ℝ, v.add (w.mul (0 * r)) = v := by
    intro v w r
    simp [Vec3.add, Vec3.mul]
  simp only [correct]
  rw [hz]

/-- Scalar skeleton of the strength-0 tolerance argument on all of `[0, 1]`:
the clamped round-trip value, re-encoded, is within `1e-3` of the input
channel. -/
theorem gamma_diff_unit {cu vx rx : ℝ} (hcu : 0 ≤ cu)
    (hvx : vx = rx ^ ((11 : ℝ) / 5)) (hrx : 0 ≤ rx) (hrx1 : rx ≤ 1)
    (hd : |cu - vx| ≤ 366 / 10 ^ 10) :
    |cu ^ ((5 : ℝ) / 11) - rx| ≤ 1 / 1000 := by
  have hback : rx = vx ^ ((5 : ℝ) / 11) := by
    rw [hvx, ← Real.rpow_mul hrx]
    norm_num
  rw [hback]
  exact rpow_close_unit hcu (by rw [hvx]; positivity) hd

/-- Scalar skeleton of the strength-0 tolerance argument on sampled
channels (at least `1/128`): the clamped round-trip value, re-encoded, is
within `1e-5` of the input channel. -/
theorem gamma_diff_sampled {cu vx rx : ℝ} (hcu : 0 ≤ cu)
    (hvx : vx = rx ^ ((11 : ℝ) / 5)) (hrx : 1 / 128 ≤ rx) (hrx1 : rx ≤ 1)
    (hd : |cu - vx| ≤ 366 / 10 ^ 10) :
    |cu ^ ((5 : ℝ) / 11) - rx| ≤ 1 / 100000 := by
  have hrx0 : (0 : ℝ) ≤ rx := by linarith
  have hback : rx = vx ^ ((5 : ℝ) / 11) := by
    rw [hvx, ← Real.rpow_mul hrx0]
    norm_num
  have hvlow : 23127999 / 10 ^ 12 ≤ vx := by
    have h1 : ((1 : ℝ) / 128) ^ ((11 : ℝ) / 5) ≤ vx := by
      rw [hvx]
      exact Real.rpow_le_rpow (by norm_num) hrx (by norm_num)
    have h2 : (23127999 / 10 ^ 12 : ℝ) ≤ ((1 : ℝ) / 128) ^ ((11 : ℝ) / 5) := by
      have h := (le_rpow_div_iff (x := (1 : ℝ) / 128) (t := (23127999 / 10 ^ 12 : ℝ))
        (by norm_num) (by norm_num) 11 5 (by norm_num)).mpr (by norm_num)
      simpa using h
    linarith
  rw [hback]
  exact rpow_close_of_close (23091399 / 10 ^ 12) (147891 / 50000000)
    (366 / 10 ^ 10) (1 / 100000) (by norm_num) (by norm_num) (by norm_num) (by norm_num)
    hcu (by linarith [hvlow]) hd (by norm_num)

/-- The full strength-0 pipeline (gamma-decode, LMS round trip, clamp,
gamma-encode) moves every unit-range channel by at most `1e-3`. -/
theorem pipeline_close_unit (rgb : Vec3)
    (hx0 : 0 ≤ rgb.x) (hx1 : rgb.x ≤ 1) (hy0 : 0 ≤ rgb.y) (hy1 : rgb.y ≤ 1)
    (hz0 : 0 ≤ rgb.z) (hz1 : rgb.z ≤ 1) :
    |(from_linear ((RGB_FROM_LMS.mul_vec (LMS_FROM_RGB.mul_vec (to_linear rgb))).clamp)).x -
      rgb.x| ≤ 1 / 1000 ∧
    |(from_linear ((RGB_FROM_LMS.mul_vec (LMS_FROM_RGB.mul_vec (to_linear rgb))).clamp)).y -
      rgb.y| ≤ 1 / 1000 ∧
    |(from_linear ((RGB_FROM_LMS.mul_vec (LMS_FROM_RGB.mul_vec (to_linear rgb))).clamp)).z -
      rgb.z| ≤ 1 / 1000 := by
  have hG2 : GAMMA = (11 : ℝ) / 5 := by norm_num [GAMMA]
  have hG5 : 1.0 / GAMMA = (5 : ℝ) / 11 := by norm_num [GAMMA]
  have hGpos : (0 : ℝ) ≤ GAMMA := by norm_num [GAMMA]
  have hvx : (to_linear rgb).x = rgb.x ^ ((11 : ℝ) / 5) := by
    simp only [to_linear, Vec3.pow]
    rw [hG2]
  have hvy : (to_linear rgb).y = rgb.y ^ ((11 : ℝ) / 5) := by
    simp only [to_linear, Vec3.pow]
    rw [hG2]
  have hvz : (to_linear rgb).z = rgb.z ^ ((11 : ℝ) / 5) := by
    simp only [to_linear, Vec3.pow]
    rw [hG2]
  have hb : (0 ≤ (to_linear rgb).x ∧ (to_linear rgb).x ≤ 1) ∧
      (0 ≤ (to_linear rgb).y ∧ (to_linear rgb).y ≤ 1) ∧
      (0 ≤ (to_linear rgb).z ∧ (to_linear rgb).z ≤ 1) := by
    simp only [to_linear, Vec3.pow]
    exact ⟨⟨Real.rpow_nonneg hx0 _, Real.rpow_le_one hx0 hx1 hGpos⟩,
      ⟨Real.rpow_nonneg hy0 _, Real.rpow_le_one hy0 hy1 hGpos⟩,
      ⟨Real.rpow_nonneg hz0 _, Real.rpow_le_one hz0 hz1 hGpos⟩⟩
  obtain ⟨d1, d2, d3⟩ := round_trip_close (to_linear rgb)
    hb.1.1 hb.1.2 hb.2.1.1 hb.2.1.2 hb.2.2.1 hb.2.2.2
  simp only [from_linear, Vec3.pow, Vec3.clamp]
  rw [hG5]
  refine ⟨?_, ?_, ?_⟩
  · exact gamma_diff_unit (by norm_num [le_max_iff]) hvx hx0 hx1
      (clamp_scalar_close hb.1.1 hb.1.2 d1)
  · exact gamma_diff_unit (by norm_num [le_max_iff]) hvy hy0 hy1
      (clamp_scalar_close hb.2.1.1 hb.2.1.2 d2)
  · exact gamma_diff_unit (by norm_num [le_max_iff]) hvz hz0 hz1
      (clamp_scalar_close hb.2.2.1 hb.2.2.2 d3)

/-- The full strength-0 pipeline moves every sampled channel (at least
`1/128`) by at most `1e-5`. -/
theorem pipeline_close_sampled (rgb : Vec3)
    (hx0 : 1 / 128 ≤ rgb.x) (hx1 : rgb.x ≤ 1) (hy0 : 1 / 128 ≤ rgb.y) (hy1 : rgb.y ≤ 1)
    (hz0 : 1 / 128 ≤ rgb.z) (hz1 : rgb.z ≤ 1) :
    |(from_linear ((RGB_FROM_LMS.mul_vec (LMS_FROM_RGB.mul_vec (to_linear rgb))).clamp)).x -
      rgb.x| ≤ 1 / 100000 ∧
    |(from_linear ((RGB_FROM_LMS.mul_vec (LMS_FROM_RGB.mul_vec (to_linear rgb))).clamp)).y -
      rgb.y| ≤ 1 / 100000 ∧
    |(from_linear ((RGB_FROM_LMS.mul_vec (LMS_FROM_RGB.mul_vec (to_linear rgb))).clamp)).z -
      rgb.z| ≤ 1 / 100000 := by
  have hx0' : (0 : ℝ) ≤ rgb.x := by linarith
  have hy0' : (0 : ℝ) ≤ rgb.y := by linarith
  have hz0' : (0 : ℝ) ≤ rgb.z := by linarith
  have hG2 : GAMMA = (11 : ℝ) / 5 := by norm_num [GAMMA]
  have hG5 : 1.0 / GAMMA = (5 : ℝ) / 11 := by norm_num [GAMMA]
  have hGpos : (0 : ℝ) ≤ GAMMA := by norm_num [GAMMA]
  have hvx : (to_linear rgb).x = rgb.x ^ ((11 : ℝ) / 5) := by
    simp only [to_linear, Vec3.pow]
    rw [hG2]
  have hvy : (to_linear rgb).y = rgb.y ^ ((11 : ℝ) / 5) := by
    simp only [to_linear, Vec3.pow]
    rw [hG2]
  have hvz : (to_linear rgb).z = rgb.z ^ ((11 : ℝ) / 5) := by
    simp only [to_linear, Vec3.pow]
    rw [hG2]
  have hb : (0 ≤ (to_linear rgb).x ∧ (to_linear rgb).x ≤ 1) ∧
      (0 ≤ (to_linear rgb).y ∧ (to_linear rgb).y ≤ 1) ∧
      (0 ≤ (to_linear rgb).z ∧ (to_linear rgb).z ≤ 1) := by
    simp only [to_linear, Vec3.pow]
    exact ⟨⟨Real.rpow_nonneg hx0' _, Real.rpow_le_one hx0' hx1 hGpos⟩,
      ⟨Real.rpow_nonneg hy0' _, Real.rpow_le_one hy0' hy1 hGpos⟩,
      ⟨Real.rpow_nonneg hz0' _, Real.rpow_le_one hz0' hz1 hGpos⟩⟩
  obtain ⟨d1, d2, d3⟩ := round_trip_close (to_linear rgb)
    hb.1.1 hb.1.2 hb.2.1.1 hb.2.1.2 hb.2.2.1 hb.2.2.2
  simp only [from_linear, Vec3.pow, Vec3.clamp]
  rw [hG5]
  refine ⟨?_, ?_, ?_⟩
  · exact gamma_diff_sampled (by norm_num [le_max_iff]) hvx hx0 hx1
      (clamp_scalar_close hb.1.1 hb.1.2 d1)
  · exact gamma_diff_sampled (by norm_num [le_max_iff]) hvy hy0 hy1
      (clamp_scalar_close hb.2.1.1 hb.2.1.2 d2)
  · exact gamma_diff_sampled (by norm_num [le_max_iff]) hvz hz0 hz1
      (clamp_scalar_close hb.2.2.1 hb.2.2.2 d3)

/-! ## Claim C8 -/

/-- C8 (amended): at strength 0 `correct` returns the input only
approximately — within `1e-3` per channel on all of `[0, 1]³` — not
bit-for-bit: the LMS matrices are not exact inverses, so the identity path
still takes a non-trivial round trip. -/
theorem correct_strength_zero_near_identity (t : CBType) (rgb : Vec3)
    (hx0 : 0 ≤ rgb.x) (hx1 : rgb.x ≤ 1) (hy0 : 0 ≤ rgb.y) (hy1 : rgb.y ≤ 1)
    (hz0 : 0 ≤ rgb.z) (hz1 : rgb.z ≤ 1) :
    |(correct rgb t 0).x - rgb.x| ≤ 1 / 1000 ∧
    |(correct rgb t 0).y - rgb.y| ≤ 1 / 1000 ∧
    |(correct rgb t 0).z - rgb.z| ≤ 1 / 1000 := by
  rw [correct_zero]
  exact pipeline_close_unit rgb hx0 hx1 hy0 hy1 hz0 hz1

/-- Witness for the amended C8 at the midpoint gray color. -/
theorem correct_strength_zero_near_identity_witness :
    |(correct ⟨1/2, 1/2, 1/2⟩ CBType.protanope 0).x - (⟨1/2, 1/2, 1/2⟩ : Vec3).x| ≤ 1 / 1000 ∧
    |(correct ⟨1/2, 1/2, 1/2⟩ CBType.protanope 0).y - (⟨1/2, 1/2, 1/2⟩ : Vec3).y| ≤ 1 / 1000 ∧
    |(correct ⟨1/2, 1/2, 1/2⟩ CBType.protanope 0).z - (⟨1/2, 1/2, 1/2⟩ : Vec3).z| ≤ 1 / 1000 :=
  correct_strength_zero_near_identity CBType.protanope ⟨1/2, 1/2, 1/2⟩
    (by norm_num) (by norm_num) (by norm_num) (by norm_num) (by norm_num) (by norm_num)

/-- Counterexample to C8 as stated: at the midpoint gray input, `correct` at
strength 0 does not return the input bit-for-bit — the red channel strictly
increases, because the `RGB_FROM_LMS · LMS_FROM_RGB` product's first row
sums to slightly more than 1. -/
theorem correct_strength_zero_not_exact :
    (correct ⟨1/2, 1/2, 1/2⟩ CBType.protanope 0).x ≠ (⟨1/2, 1/2, 1/2⟩ : Vec3).x := by
  have hG2 : GAMMA = (11 : ℝ) / 5 := by norm_num [GAMMA]
  have hG5 : 1.0 / GAMMA = (5 : ℝ) / 11 := by norm_num [GAMMA]
  have hc0 : (0 : ℝ) < (1/2 : ℝ) ^ ((11 : ℝ) / 5) :=
    Real.rpow_pos_of_pos (by norm_num) _
  have hcub : (1/2 : ℝ) ^ ((11 : ℝ) / 5) ≤ 108819 / 500000 := by
    have h := (rpow_div_le_iff (x := (1/2 : ℝ)) (t := (108819 / 500000 : ℝ))
      (by norm_num) (by norm_num) 11 5 (by norm_num)).mpr (by norm_num)
    simpa using h
  have hcpow : ((1/2 : ℝ) ^ ((11 : ℝ) / 5)) ^ ((5 : ℝ) / 11) = 1/2 := by
    rw [← Real.rpow_mul (by norm_num : (0:ℝ) ≤ 1/2)]
    norm_num
  rw [correct_zero]
  have hlin : to_linear ⟨1/2, 1/2, 1/2⟩ =
      ⟨(1/2 : ℝ) ^ ((11 : ℝ) / 5), (1/2 : ℝ) ^ ((11 : ℝ) / 5), (1/2 : ℝ) ^ ((11 : ℝ) / 5)⟩ := by
    simp only [to_linear, Vec3.pow]
    rw [hG2]
  rw [hlin]
  simp only [from_linear, Vec3.pow, Vec3.clamp, Mat3.mul_vec, Vec3.dot,
    LMS_FROM_RGB, RGB_FROM_LMS]
  rw [hG5]
  have key : ∀ u : ℝ, u = (625000022864581 / 625000000000000 : ℝ) *
      ((1/2 : ℝ) ^ ((11 : ℝ) / 5)) →
      (max 0.0 (min 1.0 u)) ^ ((5 : ℝ) / 11) ≠ (⟨1/2, 1/2, 1/2⟩ : Vec3).x := by
    intro u hu
    have hu0 : 0 ≤ u := by
      rw [hu]
      positivity
    have hu1 : u ≤ 1 := by
      rw [hu]
      nlinarith [hcub, hc0.le]
    have hgt : (1/2 : ℝ) < u ^ ((5 : ℝ) / 11) := by
      have hlt : (1/2 : ℝ) ^ ((11 : ℝ) / 5) < u := by
        rw [hu]
        nlinarith [hc0]
      have h2 := Real.rpow_lt_rpow hc0.le hlt (by norm_num : (0:ℝ) < 5/11)
      rw [hcpow] at h2
      exact h2
    rw [clamp_scalar_id hu0 hu1]
    have : (⟨1/2, 1/2, 1/2⟩ : Vec3).x = 1/2 := rfl
    rw [this]
    exact ne_of_gt hgt
  apply key
  ring

/-! ## Claim C1 -/

/-- Counterexample to C1 as stated: at the `N = 64` sample with index triple
`(0, 63, 63)` — input `(1/128, 127/128, 127/128)` — `simulate` at strength 0
moves the red channel by more than the claimed `1e-6` tolerance (the true
deviation is about `4.9e-6`). -/
theorem strength_zero_tolerance_counterexample :
    cell_center 64 0 63 63 = ⟨1/128, 127/128, 127/128⟩ ∧
    1/1000000 < |(simulate (cell_center 64 0 63 63) CBType.protanope 0).x -
      (cell_center 64 0 63 63).x| := by
  have hcc : cell_center 64 0 63 63 = ⟨1/128, 127/128, 127/128⟩ := by
    simp only [cell_center, Vec3.mk.injEq]
    norm_num
  refine ⟨hcc, ?_⟩
  have hG2 : GAMMA = (11 : ℝ) / 5 := by norm_num [GAMMA]
  have hG5 : 1.0 / GAMMA = (5 : ℝ) / 11 := by norm_num [GAMMA]
  have hplb : (23127999 / 10 ^ 12 : ℝ) ≤ (1/128 : ℝ) ^ ((11 : ℝ) / 5) := by
    have h := (le_rpow_div_iff (x := (1/128 : ℝ)) (t := (23127999 / 10 ^ 12 : ℝ))
      (by norm_num) (by norm_num) 11 5 (by norm_num)).mpr (by norm_num)
    simpa using h
  have hpub : (1/128 : ℝ) ^ ((11 : ℝ) / 5) ≤ 2891 / 125000000 := by
    have h := (rpow_div_le_iff (x := (1/128 : ℝ)) (t := (2891 / 125000000 : ℝ))
      (by norm_num) (by norm_num) 11 5 (by norm_num)).mpr (by norm_num)
    simpa using h
  have hqlb : (9828930243 / 10 ^ 10 : ℝ) ≤ (127/128 : ℝ) ^ ((11 : ℝ) / 5) := by
    have h := (le_rpow_div_iff (x := (127/128 : ℝ)) (t := (9828930243 / 10 ^ 10 : ℝ))
      (by norm_num) (by norm_num) 11 5 (by norm_num)).mpr (by norm_num)
    simpa using h
  have hqub : (127/128 : ℝ) ^ ((11 : ℝ) / 5) ≤ 2457232561 / 2500000000 := by
    have h := (rpow_div_le_iff (x := (127/128 : ℝ)) (t := (2457232561 / 2500000000 : ℝ))
      (by norm_num) (by norm_num) 11 5 (by norm_num)).mpr (by norm_num)
    simpa using h
  rw [hcc, simulate_zero]
  have hlin : to_linear ⟨1/128, 127/128, 127/128⟩ =
      ⟨(1/128 : ℝ) ^ ((11 : ℝ) / 5), (127/128 : ℝ) ^ ((11 : ℝ) / 5),
       (127/128 : ℝ) ^ ((11 : ℝ) / 5)⟩ := by
    simp only [to_linear, Vec3.pow]
    rw [hG2]
  rw [hlin]
  simp only [from_linear, Vec3.pow, Vec3.clamp, Mat3.mul_vec, Vec3.dot,
    LMS_FROM_RGB, RGB_FROM_LMS]
  rw [hG5]
  have key : ∀ u : ℝ, 231578 / 10 ^ 10 ≤ u → u ≤ 1 →
      1/1000000 < |(max 0.0 (min 1.0 u)) ^ ((5 : ℝ) / 11) -
        (⟨1/128, 127/128, 127/128⟩ : Vec3).x| := by
    intro u hlo hhi
    rw [clamp_scalar_id (by linarith) hhi]
    have hgt : (1/128 + 1/1000000 : ℝ) < u ^ ((5 : ℝ) / 11) := by
      have hpow : ((1/128 + 1/1000000 : ℝ)) ^ 11 < u ^ 5 := by
        calc ((1/128 + 1/1000000 : ℝ)) ^ 11 < (231578 / 10 ^ 10 : ℝ) ^ 5 := by norm_num
          _ ≤ u ^ 5 := pow_le_pow_left (by norm_num) hlo 5
      have h := (lt_rpow_div_iff (x := u) (t := (1/128 + 1/1000000 : ℝ))
        (by linarith) (by norm_num) 5 11 (by norm_num)).mpr hpow
      simpa using h
    have hx : (⟨1/128, 127/128, 127/128⟩ : Vec3).x = 1/128 := rfl
    rw [hx]
    calc (1/1000000 : ℝ) < u ^ ((5 : ℝ) / 11) - 1/128 := by linarith
      _ ≤ |u ^ ((5 : ℝ) / 11) - 1/128| := le_abs_self _
  apply key
  · linarith
  · linarith

/-- C1 (amended): for every allowed resolution (16, 32 or 64), every sampled
cell-center input, every deficiency type and every operation, strength 0
returns the input to within `1e-5` per channel (not the claimed `1e-6`,
which fails at fine resolutions; `daltonise` is exactly the identity, while
`simulate` and `correct` incur the LMS round-trip error amplified by the
gamma encoding). -/
theorem strength_zero_near_identity (N r_idx g_idx b_idx : ℕ)
    (hN : N = 16 ∨ N = 32 ∨ N = 64) (hr : r_idx < N) (hg : g_idx < N) (hb : b_idx < N)
    (t : CBType) (op : Operation) :
    |(transform_func op (cell_center N r_idx g_idx b_idx) t 0).x -
      (cell_center N r_idx g_idx b_idx).x| ≤ 1 / 100000 ∧
    |(transform_func op (cell_center N r_idx g_idx b_idx) t 0).y -
      (cell_center N r_idx g_idx b_idx).y| ≤ 1 / 100000 ∧
    |(transform_func op (cell_center N r_idx g_idx b_idx) t 0).z -
      (cell_center N r_idx g_idx b_idx).z| ≤ 1 / 100000 := by
  have hcomp : ∀ i : ℕ, i < N →
      1/128 ≤ ((i : ℝ) + 0.5) * (1.0 / (N : ℝ)) ∧ ((i : ℝ) + 0.5) * (1.0 / (N : ℝ)) ≤ 1 := by
    intro i hi
    have hi1 : (i : ℝ) + 1 ≤ (N : ℝ) := by exact_mod_cast hi
    have hi0 : (0 : ℝ) ≤ (i : ℝ) := Nat.cast_nonneg i
    rcases hN with rfl | rfl | rfl <;> push_cast at hi1 ⊢ <;> constructor <;> nlinarith
  have ex : (cell_center N r_idx g_idx b_idx).x = ((r_idx : ℝ) + 0.5) * (1.0 / (N : ℝ)) := rfl
  have ey : (cell_center N r_idx g_idx b_idx).y = ((g_idx : ℝ) + 0.5) * (1.0 / (N : ℝ)) := rfl
  have ez : (cell_center N r_idx g_idx b_idx).z = ((b_idx : ℝ) + 0.5) * (1.0 / (N : ℝ)) := rfl
  have hbx := hcomp r_idx hr
  have hby := hcomp g_idx hg
  have hbz := hcomp b_idx hb
  rw [← ex] at hbx
  rw [← ey] at hby
  rw [← ez] at hbz
  cases op
  · simp only [transform_func]
    rw [simulate_zero]
    exact pipeline_close_sampled _ hbx.1 hbx.2 hby.1 hby.2 hbz.1 hbz.2
  · simp only [transform_func]
    rw [daltonise_strength_zero_exact t _ (by linarith [hbx.1]) hbx.2
      (by linarith [hby.1]) hby.2 (by linarith [hbz.1]) hbz.2]
    norm_num
  · simp only [transform_func]
    rw [correct_zero]
    exact pipeline_close_sampled _ hbx.1 hbx.2 hby.1 hby.2 hbz.1 hbz.2

/-- Witness for the amended C1 at resolution 16, index triple `(0, 0, 0)`,
protanope simulation. -/
theorem strength_zero_near_identity_witness :
    |(transform_func Operation.simulate (cell_center 16 0 0 0) CBType.protanope 0).x -
      (cell_center 16 0 0 0).x| ≤ 1 / 100000 ∧
    |(transform_func Operation.simulate (cell_center 16 0 0 0) CBType.protanope 0).y -
      (cell_center 16 0 0 0).y| ≤ 1 / 100000 ∧
    |(transform_func Operation.simulate (cell_center 16 0 0 0) CBType.protanope 0).z -
      (cell_center 16 0 0 0).z| ≤ 1 / 100000 :=
  strength_zero_near_identity 16 0 0 0 (Or.inl rfl) (by norm_num) (by norm_num)
    (by norm_num) CBType.protanope Operation.simulate
